import Mathlib

/-!
Verification of the training harness in `src/models.py` (class `BaseModel`).

The development shallowly embeds the two core routines:

* `mini_batch_loop` (lines 34-85): the mini-batch executor, embedded as
  `mbGo`/`mini_batch_loop` below.  Machine floats become `ℚ`; the autograd
  mode (`torch.no_grad()`) becomes the boolean `gradEnabled`; Python
  exceptions become `Except PyErr`.
* `fit` (lines 87-210): the epoch controller, embedded as
  `fitStep`/`fitLoop`/`fit` below.  The values produced by the model, the
  optimizer and the loss/metric functions during each epoch are supplied by
  a `FitEnv`, and the state mutated by the loop (`self.epoch`,
  `self.dropout`, `self.best_state`, `self.best_opt` and the locals of
  `fit`) is collected in a `FitState`.  Where the code uses `np.inf` and
  `-np.inf` the embedding uses `WithTop ℚ` and `WithBot ℚ`.
-/

set_option autoImplicit false

/-- Python exceptions that the embedded code can raise. -/
inductive PyErr where
  | zeroDivisionError
  | runtimeError
  | valueError
  | typeError

/-- Python `int(q)` on a float: truncation toward zero. -/
def pyInt (q : ℚ) : ℤ := if 0 ≤ q then ⌊q⌋ else ⌈q⌉

/-- Line 197 of `models.py`: `int(patience / (1 - self.dropout))`.  The
division raises `ZeroDivisionError` when `1 - dropout == 0`. -/
def stopThreshold (patience dropout : ℚ) : Except PyErr ℤ :=
  if 1 - dropout = 0 then .error .zeroDivisionError
  else .ok (pyInt (patience / (1 - dropout)))

/-- Mean of a list of rationals, as `np.mean` computes it on the nonempty
loss lists that arise in the code. -/
def listMean (l : List ℚ) : ℚ := l.sum / l.length

/-- Line 85 of `models.py`: `np.mean(zip(*mid_losses), axis=1)`, the
column-wise mean of the recorded per-term losses across batches: transpose
the list of rows, then take the mean of each column. -/
def colMeans (rows : List (List ℚ)) : List ℚ := rows.transpose.map listMean

/-- A weighted objective term, one entry of `self.train_functions` or
`self.val_functions` (the `name` key only feeds the printed header). -/
structure LossTerm (Pr Y : Type) where
  weight : ℚ
  f : Pr → Y → ℚ

/-- The slice of a `BaseModel` instance read by `mini_batch_loop`: the
`self.training` mode flag, the parameters, the forward pass, the two
objective-term lists, and the effect of `optimizer_alg.step()` after a
backpropagation, abstracted as a function of the current parameters and the
batch loss that was backpropagated. -/
structure MBModel (X Y Pr P : Type) where
  training : Bool
  params : P
  forward : P → X → Pr
  train_functions : List (LossTerm Pr Y)
  val_functions : List (LossTerm Pr Y)
  optStep : P → ℚ → P

/-- Lines 50-55 of `models.py`: the weighted sum
`torch.sum([l_f['weight'] * l_f['f'](pred_labels, y) for l_f in terms])`. -/
def weightedSum {Pr Y : Type} (ts : List (LossTerm Pr Y)) (pr : Pr) (y : Y) : ℚ :=
  (ts.map fun t => t.weight * t.f pr y).sum

/-- The value returned by `mini_batch_loop` (lines 82-85): a bare mean loss
when the `train` argument is true, and otherwise the 2-tuple
`(np.mean(losses), np.mean(zip(*mid_losses), axis=1))`.  No third component
exists in the source. -/
inductive MBReturn where
  | single (meanLoss : ℚ)
  | pair (meanLoss : ℚ) (midMeans : List ℚ)

/-- The batch loop of `mini_batch_loop` (lines 40-73).  The loss/step branch
tests `self.training` (the module mode flag), while the return arity tests
the `train` argument.  `gradEnabled` is false inside `torch.no_grad()`;
calling `.backward()` on a loss whose graph was built with autograd disabled
raises a `RuntimeError` before `optimizer_alg.step()` is reached. -/
def mbGo {X Y Pr P : Type} (m : MBModel X Y Pr P) (gradEnabled train : Bool) :
    List (X × Y) → P → List ℚ → List (List ℚ) → Except PyErr (P × MBReturn)
  | [], p, losses, mids =>
      if train then .ok (p, .single (listMean losses))
      else .ok (p, .pair (listMean losses) (colMeans mids))
  | (x, y) :: rest, p, losses, mids =>
      if m.training then
        let batch_loss := weightedSum m.train_functions (m.forward p x) y
        if gradEnabled then
          mbGo m gradEnabled train rest (m.optStep p batch_loss)
            (losses ++ [batch_loss]) mids
        else .error .runtimeError
      else
        let batch_losses := m.val_functions.map fun t => t.weight * t.f (m.forward p x) y
        mbGo m gradEnabled train rest p (losses ++ [batch_losses.sum])
          (mids ++ [batch_losses])

/-- Lines 34-85 of `models.py`: run the batch loop over a loader, starting
from the model's current parameters with empty loss accumulators. -/
def mini_batch_loop {X Y Pr P : Type} (m : MBModel X Y Pr P) (gradEnabled : Bool)
    (loader : List (X × Y)) (train : Bool) : Except PyErr (P × MBReturn) :=
  mbGo m gradEnabled train loader m.params [] []

/-- Line 126 of `models.py`:
`loss_val, mid_losses, acc = self.mini_batch_loop(val_loader, False)`.
Unpacking into three targets needs an iterable of exactly three elements: a
bare float raises `TypeError`, and a 2-tuple raises `ValueError`. -/
def unpack3 : MBReturn → Except PyErr (ℚ × List ℚ × List ℚ)
  | .single _ => .error .typeError
  | .pair _ _ => .error .valueError

/-- The validation pass exactly as `fit` invokes it (lines 96 and 124-128):
`fit` calls `self.train()` on entry and never `self.eval()`, so the model is
still in training mode when the pass runs; the call happens inside
`torch.no_grad()` (autograd disabled) with the `train` argument false. -/
def fitValidationCall {X Y Pr P : Type} (m : MBModel X Y Pr P)
    (val_loader : List (X × Y)) : Except PyErr (P × MBReturn) :=
  mini_batch_loop { m with training := true } false val_loader false

/-- The per-epoch inputs `fit` receives from its collaborators: the mean
training loss of each epoch, the parameter and optimizer snapshots
(`deepcopy(self.state_dict())`, value copies) after each epoch's training
pass, the validation results of each epoch, the entry snapshots, and the
model attributes `final_dropout` and `ann_rate`. -/
structure FitEnv (P Q : Type) where
  lossTr : ℕ → WithTop ℚ
  lossVal : ℕ → WithTop ℚ
  midLosses : ℕ → List (WithTop ℚ)
  accVals : ℕ → List (WithBot ℚ)
  paramsAfter : ℕ → P
  optAfter : ℕ → Q
  initParams : P
  initOpt : Q
  final_dropout : ℚ
  ann_rate : ℚ

/-- The state a `fit` run mutates: `self.epoch`, the live parameters and
optimizer state, `self.dropout`, and the locals `best_e`, `no_improv_e`,
`best_loss_tr`, `best_loss_val`, `best_losses`, `best_acc`,
`self.best_state`, `self.best_opt`. -/
structure FitState (P Q : Type) where
  epoch : ℕ
  params : P
  opt : Q
  dropout : ℚ
  best_e : ℕ
  no_improv_e : ℕ
  best_loss_tr : WithTop ℚ
  best_loss_val : WithTop ℚ
  best_losses : List (WithTop ℚ)
  best_acc : List (WithBot ℚ)
  best_state : P
  best_opt : Q

/-- Lines 96-110 of `fit`: the initial trackers.  `nDiag` is
`len(l_names) - 2`, i.e. the number of validation terms beyond the primary
one, and `nAcc` is `len(acc_names)`; `best_losses` starts at `np.inf` in
every slot and `best_acc` at `-np.inf`.  The deep snapshots `best_state` and
`best_opt` are taken before the first epoch runs. -/
def initState {P Q : Type} (env : FitEnv P Q) (dropout0 : ℚ) (nDiag nAcc : ℕ) :
    FitState P Q :=
  { epoch := 0
    params := env.initParams
    opt := env.initOpt
    dropout := dropout0
    best_e := 0
    no_improv_e := 0
    best_loss_tr := ⊤
    best_loss_val := ⊤
    best_losses := List.replicate nDiag ⊤
    best_acc := List.replicate nAcc ⊥
    best_state := env.initParams
    best_opt := env.initOpt }

/-- One iteration of the epoch loop of `fit` (lines 113-177): training pass,
validation pass, element-wise best-loss and best-metric tracking (lines
137-141 and 149-153), the improvement/patience update (lines 156-168), and
the dropout annealing step (lines 174-177).  The printing on lines 179-195
has no state effect. -/
def fitStep {P Q : Type} (env : FitEnv P Q) (e : ℕ) (s : FitState P Q) :
    FitState P Q :=
  let loss_tr := env.lossTr e
  let best_loss_tr := if loss_tr < s.best_loss_tr then loss_tr else s.best_loss_tr
  let mid_losses := env.midLosses e
  let best_losses :=
    List.zipWith (fun pl l => if pl > l then l else pl) s.best_losses mid_losses
  let acc := env.accVals e
  let best_acc :=
    List.zipWith (fun pa a => if pa < a then a else pa) s.best_acc acc
  let loss_val := env.lossVal e
  let dropout :=
    if env.final_dropout ≤ s.dropout
    then max env.final_dropout (s.dropout - env.ann_rate)
    else s.dropout
  if loss_val < s.best_loss_val then
    { epoch := e
      params := env.paramsAfter e
      opt := env.optAfter e
      dropout := dropout
      best_e := e
      no_improv_e := 0
      best_loss_tr := best_loss_tr
      best_loss_val := loss_val
      best_losses := best_losses
      best_acc := best_acc
      best_state := env.paramsAfter e
      best_opt := env.optAfter e }
  else
    { epoch := e
      params := env.paramsAfter e
      opt := env.optAfter e
      dropout := dropout
      best_e := s.best_e
      no_improv_e := s.no_improv_e + 1
      best_loss_tr := best_loss_tr
      best_loss_val := s.best_loss_val
      best_losses := best_losses
      best_acc := best_acc
      best_state := s.best_state
      best_opt := s.best_opt }

/-- The epoch loop `for self.epoch in range(epochs)` (lines 113-198), with
the early-stopping check of line 197 evaluated after the dropout annealing
update of the same iteration. -/
def fitLoop {P Q : Type} (env : FitEnv P Q) (patience : ℚ) :
    ℕ → ℕ → FitState P Q → Except PyErr (FitState P Q)
  | 0, _, s => .ok s
  | n + 1, e, s =>
      let s' := fitStep env e s
      match stopThreshold patience s'.dropout with
      | .error err => .error err
      | .ok t => if (s'.no_improv_e : ℤ) = t then .ok s' else fitLoop env patience n (e + 1) s'

/-- Lines 87-201 of `models.py`: initialise the trackers, run the epoch
loop, then restore `self.epoch = best_e` and
`self.load_state_dict(self.best_state)` (lines 200-201). -/
def fit {P Q : Type} (env : FitEnv P Q) (dropout0 : ℚ) (nDiag nAcc epochs : ℕ)
    (patience : ℚ) : Except PyErr (FitState P Q) :=
  (fitLoop env patience epochs 0 (initState env dropout0 nDiag nAcc)).map
    fun s => { s with epoch := s.best_e, params := s.best_state }

/-- The state reached after `k` iterations of the epoch loop body, starting
from state `s` with epoch index `e` and ignoring the stopping checks. -/
def iterFitFrom {P Q : Type} (env : FitEnv P Q) (e : ℕ) (s : FitState P Q) :
    ℕ → FitState P Q
  | 0 => s
  | k + 1 => fitStep env (e + k) (iterFitFrom env e s k)

/-- The check of line 197 evaluates without a `ZeroDivisionError` and does
not fire, so the loop continues. -/
def okNoBreak {P Q : Type} (patience : ℚ) (s : FitState P Q) : Prop :=
  1 - s.dropout ≠ 0 ∧ (s.no_improv_e : ℤ) ≠ pyInt (patience / (1 - s.dropout))

/-- The check of line 197 evaluates without a `ZeroDivisionError` and fires,
so the loop breaks. -/
def okBreak {P Q : Type} (patience : ℚ) (s : FitState P Q) : Prop :=
  1 - s.dropout ≠ 0 ∧ (s.no_improv_e : ℤ) = pyInt (patience / (1 - s.dropout))

/-- The best-tracking fields describe the best of the first `n` epochs:
either no epoch improved on the initial infinite loss and the entry
snapshots survive, or they are the epoch-`best_e` snapshots and that
epoch's validation loss is minimal among the `n` observed ones. -/
def bestInv {P Q : Type} (env : FitEnv P Q) (n : ℕ) (s : FitState P Q) : Prop :=
  ((s.best_loss_val = ⊤ ∧ s.best_state = env.initParams ∧
      s.best_opt = env.initOpt ∧ s.best_e = 0) ∨
    (s.best_e < n ∧ s.best_loss_val = env.lossVal s.best_e ∧
      s.best_state = env.paramsAfter s.best_e ∧ s.best_opt = env.optAfter s.best_e)) ∧
  ∀ k, k < n → s.best_loss_val ≤ env.lossVal k

/-! Concrete fixtures used to evaluate the development on closed inputs. -/

/-- Environment with constant infinite losses, dropout held at `1/2`
(`final_dropout = 1/2`, `ann_rate = 0`): no epoch ever improves. -/
def envW1 : FitEnv Unit Unit :=
  { lossTr := fun _ => ⊤
    lossVal := fun _ => ⊤
    midLosses := fun _ => []
    accVals := fun _ => []
    paramsAfter := fun _ => ()
    optAfter := fun _ => ()
    initParams := ()
    initOpt := ()
    final_dropout := 1/2
    ann_rate := 0 }

/-- Closed form of the state after `n` epochs of a run over `envW1`. -/
def mkW1 (n : ℕ) : FitState Unit Unit :=
  { epoch := n - 1
    params := ()
    opt := ()
    dropout := 1/2
    best_e := 0
    no_improv_e := n
    best_loss_tr := ⊤
    best_loss_val := ⊤
    best_losses := []
    best_acc := []
    best_state := ()
    best_opt := () }

/-- Environment whose validation losses are `3, 1, 2, 2, ...`: the best epoch
is epoch 1.  Parameters after the training pass of epoch `k` are `k + 1`. -/
def envW2 : FitEnv ℕ Unit :=
  { lossTr := fun _ => ⊤
    lossVal := fun k =>
      if k = 0 then ((3 : ℚ) : WithTop ℚ)
      else if k = 1 then ((1 : ℚ) : WithTop ℚ) else ((2 : ℚ) : WithTop ℚ)
    midLosses := fun _ => []
    accVals := fun _ => []
    paramsAfter := fun k => k + 1
    optAfter := fun _ => ()
    initParams := 0
    initOpt := ()
    final_dropout := 0
    ann_rate := 0 }

/-- The state a 3-epoch run of `fit` over `envW2` returns. -/
def sfW2 : FitState ℕ Unit :=
  { epoch := 1
    params := 2
    opt := ()
    dropout := 0
    best_e := 1
    no_improv_e := 1
    best_loss_tr := ⊤
    best_loss_val := ((1 : ℚ) : WithTop ℚ)
    best_losses := []
    best_acc := []
    best_state := 2
    best_opt := () }

/-- Environment with `final_dropout = 3/10` and `ann_rate = 1/10`. -/
def envW6 : FitEnv Unit Unit :=
  { lossTr := fun _ => ⊤
    lossVal := fun _ => ⊤
    midLosses := fun _ => []
    accVals := fun _ => []
    paramsAfter := fun _ => ()
    optAfter := fun _ => ()
    initParams := ()
    initOpt := ()
    final_dropout := 3/10
    ann_rate := 1/10 }

/-- Initial state of a run over `envW6`, starting at dropout `1/2`. -/
def s0W6 : FitState Unit Unit := initState envW6 (1/2) 0 0

/-- Environment whose single metric takes the values `0.7, 0.8, 0.75`. -/
def envW8 : FitEnv Unit Unit :=
  { lossTr := fun _ => ⊤
    lossVal := fun _ => ⊤
    midLosses := fun _ => []
    accVals := fun k =>
      if k = 0 then [((7/10 : ℚ) : WithBot ℚ)]
      else if k = 1 then [((4/5 : ℚ) : WithBot ℚ)] else [((3/4 : ℚ) : WithBot ℚ)]
    paramsAfter := fun _ => ()
    optAfter := fun _ => ()
    initParams := ()
    initOpt := ()
    final_dropout := 0
    ann_rate := 0 }

/-- Initial state of a run over `envW8`, with one tracked metric slot. -/
def s0W8 : FitState Unit Unit := initState envW8 0 0 1

/-- Environment with constant infinite validation losses and dropout 0. -/
def envW9 : FitEnv Unit Unit :=
  { lossTr := fun _ => ⊤
    lossVal := fun _ => ⊤
    midLosses := fun _ => []
    accVals := fun _ => []
    paramsAfter := fun _ => ()
    optAfter := fun _ => ()
    initParams := ()
    initOpt := ()
    final_dropout := 0
    ann_rate := 0 }

/-- Closed form of the state after `n` epochs of a run over `envW9`. -/
def mkW9 (n : ℕ) : FitState Unit Unit :=
  { epoch := n - 1
    params := ()
    opt := ()
    dropout := 0
    best_e := 0
    no_improv_e := n
    best_loss_tr := ⊤
    best_loss_val := ⊤
    best_losses := []
    best_acc := []
    best_state := ()
    best_opt := () }

/-- The state a 2-epoch run of `fit` over `envW9` returns. -/
def sfW9 : FitState Unit Unit :=
  { epoch := 0
    params := ()
    opt := ()
    dropout := 0
    best_e := 0
    no_improv_e := 2
    best_loss_tr := ⊤
    best_loss_val := ⊤
    best_losses := []
    best_acc := []
    best_state := ()
    best_opt := () }

/-- A one-parameter model in training mode, as `fit` leaves it when the
validation pass starts; its optimizer step adds 1 to the parameter. -/
def mW3 : MBModel Unit Unit Unit ℚ :=
  { training := true
    params := 0
    forward := fun _ _ => ()
    train_functions := [⟨1, fun _ _ => 1⟩]
    val_functions := [⟨1, fun _ _ => 1⟩]
    optStep := fun p _ => p + 1 }

/-- A model in evaluation mode with two validation terms of constant losses
3 and 4 (weights 1). -/
def mW5 : MBModel Unit Unit Unit ℚ :=
  { training := false
    params := 0
    forward := fun _ _ => ()
    train_functions := []
    val_functions := [⟨1, fun _ _ => 3⟩, ⟨1, fun _ _ => 4⟩]
    optStep := fun p _ => p }

/-- A model in training mode with two train terms of weight `1/2`, each
returning the constant loss 2; its optimizer step adds the batch loss. -/
def mW7 : MBModel Unit Unit Unit ℚ :=
  { training := true
    params := 0
    forward := fun _ _ => ()
    train_functions := [⟨1/2, fun _ _ => 2⟩, ⟨1/2, fun _ _ => 2⟩]
    val_functions := []
    optStep := fun p l => p + l }

/-! Basic lemmas about one epoch-loop iteration. -/

/-- Improvement branch of lines 158-165: new best snapshots, counter reset. -/
theorem fitStep_improve {P Q : Type} (env : FitEnv P Q) (e : ℕ) (s : FitState P Q)
    (h : env.lossVal e < s.best_loss_val) :
    (fitStep env e s).best_loss_val = env.lossVal e ∧
    (fitStep env e s).best_e = e ∧
    (fitStep env e s).best_state = env.paramsAfter e ∧
    (fitStep env e s).best_opt = env.optAfter e ∧
    (fitStep env e s).no_improv_e = 0 := by
  simp only [fitStep]
  rw [if_pos h]
  exact ⟨rfl, rfl, rfl, rfl, rfl⟩

/-- No-improvement branch of lines 166-168: best fields kept, counter bumped. -/
theorem fitStep_no_improve {P Q : Type} (env : FitEnv P Q) (e : ℕ) (s : FitState P Q)
    (h : ¬ env.lossVal e < s.best_loss_val) :
    (fitStep env e s).best_loss_val = s.best_loss_val ∧
    (fitStep env e s).best_e = s.best_e ∧
    (fitStep env e s).best_state = s.best_state ∧
    (fitStep env e s).best_opt = s.best_opt ∧
    (fitStep env e s).no_improv_e = s.no_improv_e + 1 := by
  simp only [fitStep]
  rw [if_neg h]
  exact ⟨rfl, rfl, rfl, rfl, rfl⟩

/-- Dropout annealing, lines 174-177, is the same in both branches. -/
theorem fitStep_dropout {P Q : Type} (env : FitEnv P Q) (e : ℕ) (s : FitState P Q) :
    (fitStep env e s).dropout =
      if env.final_dropout ≤ s.dropout
      then max env.final_dropout (s.dropout - env.ann_rate) else s.dropout := by
  simp only [fitStep]
  split <;> rfl

/-- Element-wise best-loss tracking, lines 137-141. -/
theorem fitStep_best_losses {P Q : Type} (env : FitEnv P Q) (e : ℕ) (s : FitState P Q) :
    (fitStep env e s).best_losses =
      List.zipWith (fun pl l => if pl > l then l else pl) s.best_losses
        (env.midLosses e) := by
  simp only [fitStep]
  split <;> rfl

/-- Element-wise best-metric tracking, lines 149-153. -/
theorem fitStep_best_acc {P Q : Type} (env : FitEnv P Q) (e : ℕ) (s : FitState P Q) :
    (fitStep env e s).best_acc =
      List.zipWith (fun pa a => if pa < a then a else pa) s.best_acc
        (env.accVals e) := by
  simp only [fitStep]
  split <;> rfl

/-- Keeping the smaller of a pair is taking the minimum. -/
theorem keep_min_eq {α : Type} [LinearOrder α] (a b : α) :
    (if a > b then b else a) = min a b := by
  rcases lt_or_ge b a with h | h
  · rw [if_pos h, min_eq_right h.le]
  · rw [if_neg (not_lt.mpr h), min_eq_left h]

/-- Keeping the larger of a pair is taking the maximum. -/
theorem keep_max_eq {α : Type} [LinearOrder α] (a b : α) :
    (if a < b then b else a) = max a b := by
  rcases lt_or_ge a b with h | h
  · rw [if_pos h, max_eq_right h.le]
  · rw [if_neg (not_lt.mpr h), max_eq_left h]

/-- Best-loss tracking as element-wise minimum. -/
theorem fitStep_best_losses_min {P Q : Type} (env : FitEnv P Q) (e : ℕ)
    (s : FitState P Q) :
    (fitStep env e s).best_losses =
      List.zipWith min s.best_losses (env.midLosses e) := by
  rw [fitStep_best_losses]
  congr 1
  funext a b
  exact keep_min_eq a b

/-- Best-metric tracking as element-wise maximum. -/
theorem fitStep_best_acc_max {P Q : Type} (env : FitEnv P Q) (e : ℕ)
    (s : FitState P Q) :
    (fitStep env e s).best_acc =
      List.zipWith max s.best_acc (env.accVals e) := by
  rw [fitStep_best_acc]
  congr 1
  funext a b
  exact keep_max_eq a b

/-- The threshold computation succeeds exactly when the divisor is nonzero. -/
theorem stopThreshold_eq_ok {p d : ℚ} {t : ℤ} :
    stopThreshold p d = .ok t ↔ 1 - d ≠ 0 ∧ t = pyInt (p / (1 - d)) := by
  unfold stopThreshold
  by_cases h : 1 - d = 0
  · simp [h]
  · simp [h, eq_comm]

/-- Shifting the base of the iterated epoch step by one. -/
theorem iterFitFrom_shift {P Q : Type} (env : FitEnv P Q) (e : ℕ) (s : FitState P Q)
    (k : ℕ) :
    iterFitFrom env (e + 1) (fitStep env e s) k = iterFitFrom env e s (k + 1) := by
  induction k with
  | zero => rfl
  | succ k ih =>
      show fitStep env (e + 1 + k) (iterFitFrom env (e + 1) (fitStep env e s) k) =
        fitStep env (e + (k + 1)) (iterFitFrom env e s (k + 1))
      rw [ih, Nat.add_right_comm, Nat.add_assoc]

/-! Characterisation of the epoch loop. -/

/-- If the line-197 check never fires during `n` iterations, the loop runs
all of them and returns the `n`-fold iterated state. -/
theorem fitLoop_no_break {P Q : Type} (env : FitEnv P Q) (p : ℚ) :
    ∀ (n e : ℕ) (s : FitState P Q),
      (∀ k, k < n → okNoBreak p (iterFitFrom env e s (k + 1))) →
      fitLoop env p n e s = .ok (iterFitFrom env e s n) := by
  intro n
  induction n with
  | zero => intro e s _; rfl
  | succ n ih =>
      intro e s h
      have h0 : okNoBreak p (fitStep env e s) := h 0 (Nat.succ_pos n)
      have hth : stopThreshold p (fitStep env e s).dropout =
          .ok (pyInt (p / (1 - (fitStep env e s).dropout))) := by
        unfold stopThreshold
        rw [if_neg h0.1]
      have hrec : fitLoop env p n (e + 1) (fitStep env e s) =
          .ok (iterFitFrom env (e + 1) (fitStep env e s) n) :=
        ih (e + 1) (fitStep env e s) fun k hk => by
          rw [iterFitFrom_shift]
          exact h (k + 1) (Nat.succ_lt_succ hk)
      have hunf : fitLoop env p (n + 1) e s =
          (if ((fitStep env e s).no_improv_e : ℤ) =
              pyInt (p / (1 - (fitStep env e s).dropout))
            then Except.ok (fitStep env e s)
            else fitLoop env p n (e + 1) (fitStep env e s)) := by
        simp only [fitLoop]
        rw [hth]
      rw [hunf, if_neg h0.2, hrec, iterFitFrom_shift]

/-- If the check first fires after iteration `j + 1 ≤ n`, the loop breaks
there and returns the `(j + 1)`-fold iterated state. -/
theorem fitLoop_break {P Q : Type} (env : FitEnv P Q) (p : ℚ) :
    ∀ (j n e : ℕ) (s : FitState P Q), j < n →
      (∀ k, k < j → okNoBreak p (iterFitFrom env e s (k + 1))) →
      okBreak p (iterFitFrom env e s (j + 1)) →
      fitLoop env p n e s = .ok (iterFitFrom env e s (j + 1)) := by
  intro j
  induction j with
  | zero =>
      intro n e s hn _ hb
      obtain ⟨m, rfl⟩ : ∃ m, n = m + 1 := ⟨n - 1, by omega⟩
      have hb' : okBreak p (fitStep env e s) := hb
      have hth : stopThreshold p (fitStep env e s).dropout =
          .ok (pyInt (p / (1 - (fitStep env e s).dropout))) := by
        unfold stopThreshold
        rw [if_neg hb'.1]
      have hunf : fitLoop env p (m + 1) e s =
          (if ((fitStep env e s).no_improv_e : ℤ) =
              pyInt (p / (1 - (fitStep env e s).dropout))
            then Except.ok (fitStep env e s)
            else fitLoop env p m (e + 1) (fitStep env e s)) := by
        simp only [fitLoop]
        rw [hth]
      rw [hunf, if_pos hb'.2]
      rfl
  | succ j ih =>
      intro n e s hn hnb hb
      obtain ⟨m, rfl⟩ : ∃ m, n = m + 1 := ⟨n - 1, by omega⟩
      have h0 : okNoBreak p (fitStep env e s) := hnb 0 (Nat.succ_pos j)
      have hth : stopThreshold p (fitStep env e s).dropout =
          .ok (pyInt (p / (1 - (fitStep env e s).dropout))) := by
        unfold stopThreshold
        rw [if_neg h0.1]
      have hrec : fitLoop env p m (e + 1) (fitStep env e s) =
          .ok (iterFitFrom env (e + 1) (fitStep env e s) (j + 1)) :=
        ih m (e + 1) (fitStep env e s) (by omega)
          (fun k hk => by
            rw [iterFitFrom_shift]
            exact hnb (k + 1) (Nat.succ_lt_succ hk))
          (by
            rw [iterFitFrom_shift]
            exact hb)
      have hunf : fitLoop env p (m + 1) e s =
          (if ((fitStep env e s).no_improv_e : ℤ) =
              pyInt (p / (1 - (fitStep env e s).dropout))
            then Except.ok (fitStep env e s)
            else fitLoop env p m (e + 1) (fitStep env e s)) := by
        simp only [fitLoop]
        rw [hth]
      rw [hunf, if_neg h0.2, hrec, iterFitFrom_shift]

/-- Completeness: any successful run of the loop is an iterated state,
reached either by exhausting the epoch budget or by a first firing of the
line-197 check, with the check silent at every earlier iteration. -/
theorem fitLoop_ok_inv {P Q : Type} (env : FitEnv P Q) (p : ℚ) :
    ∀ (n e : ℕ) (s r : FitState P Q), fitLoop env p n e s = .ok r →
      ∃ k, k ≤ n ∧ r = iterFitFrom env e s k ∧
        (k = n ∨ (0 < k ∧ okBreak p (iterFitFrom env e s k))) ∧
        (∀ j, 0 < j → j < k → okNoBreak p (iterFitFrom env e s j)) := by
  intro n
  induction n with
  | zero =>
      intro e s r h
      simp only [fitLoop] at h
      cases h
      exact ⟨0, Nat.le_refl 0, rfl, Or.inl rfl,
        fun j hj0 hj => absurd hj (Nat.not_lt_zero j)⟩
  | succ n ih =>
      intro e s r h
      simp only [fitLoop] at h
      cases hst : stopThreshold p (fitStep env e s).dropout with
      | error err =>
          rw [hst] at h
          simp at h
      | ok t =>
          rw [hst] at h
          have h2 : (if ((fitStep env e s).no_improv_e : ℤ) = t
              then Except.ok (fitStep env e s)
              else fitLoop env p n (e + 1) (fitStep env e s)) = Except.ok r := h
          have hok := stopThreshold_eq_ok.mp hst
          by_cases hc : ((fitStep env e s).no_improv_e : ℤ) = t
          · rw [if_pos hc] at h2
            cases h2
            refine ⟨1, by omega, rfl, Or.inr ⟨Nat.one_pos, ⟨hok.1, ?_⟩⟩,
              fun j hj0 hj => absurd hj (by omega)⟩
            show ((fitStep env e s).no_improv_e : ℤ) =
              pyInt (p / (1 - (fitStep env e s).dropout))
            rw [← hok.2]
            exact hc
          · rw [if_neg hc] at h2
            obtain ⟨k, hkle, hreq, hbrk, hnb⟩ := ih (e + 1) (fitStep env e s) r h2
            rw [iterFitFrom_shift] at hreq
            refine ⟨k + 1, by omega, hreq, ?_, ?_⟩
            · rcases hbrk with rfl | ⟨hk0, hbk⟩
              · exact Or.inl rfl
              · rw [iterFitFrom_shift] at hbk
                exact Or.inr ⟨by omega, hbk⟩
            · intro j hj0 hj
              cases j with
              | zero => omega
              | succ j' =>
                  cases j' with
                  | zero =>
                      refine ⟨hok.1, ?_⟩
                      show ((fitStep env e s).no_improv_e : ℤ) ≠
                        pyInt (p / (1 - (fitStep env e s).dropout))
                      rw [← hok.2]
                      exact hc
                  | succ j'' =>
                      have hx := hnb (j'' + 1) (by omega) (by omega)
                      rw [iterFitFrom_shift] at hx
                      exact hx

/-! Invariants of the iterated epoch step. -/

/-- One epoch never increases the running best validation loss. -/
theorem fitStep_best_loss_val_le {P Q : Type} (env : FitEnv P Q) (e : ℕ)
    (s : FitState P Q) :
    (fitStep env e s).best_loss_val ≤ s.best_loss_val := by
  by_cases h : env.lossVal e < s.best_loss_val
  · exact ((fitStep_improve env e s h).1).trans_le h.le
  · exact le_of_eq (fitStep_no_improve env e s h).1

/-- The running best validation loss is antitone along the run. -/
theorem iter_best_loss_val_antitone {P Q : Type} (env : FitEnv P Q)
    (s0 : FitState P Q) (k m : ℕ) (hkm : k ≤ m) :
    (iterFitFrom env 0 s0 m).best_loss_val ≤ (iterFitFrom env 0 s0 k).best_loss_val := by
  induction hkm with
  | refl => exact le_refl _
  | @step m hm ih =>
      exact le_trans (fitStep_best_loss_val_le env (0 + m) (iterFitFrom env 0 s0 m)) ih

/-- Dropout never goes below `final_dropout` along the run, given the
preconditions of the configuration surface. -/
theorem iter_dropout_lb {P Q : Type} (env : FitEnv P Q) (s0 : FitState P Q)
    (h1 : env.final_dropout ≤ s0.dropout) (h2 : 0 ≤ env.ann_rate) :
    ∀ k, env.final_dropout ≤ (iterFitFrom env 0 s0 k).dropout := by
  intro k
  induction k with
  | zero => exact h1
  | succ k ih =>
      show env.final_dropout ≤ (fitStep env (0 + k) (iterFitFrom env 0 s0 k)).dropout
      rw [fitStep_dropout, if_pos ih]
      exact le_max_left _ _

/-- Dropout never increases from one epoch to the next. -/
theorem iter_dropout_step_le {P Q : Type} (env : FitEnv P Q) (s0 : FitState P Q)
    (h1 : env.final_dropout ≤ s0.dropout) (h2 : 0 ≤ env.ann_rate) (k : ℕ) :
    (iterFitFrom env 0 s0 (k + 1)).dropout ≤ (iterFitFrom env 0 s0 k).dropout := by
  show (fitStep env (0 + k) (iterFitFrom env 0 s0 k)).dropout ≤ _
  rw [fitStep_dropout, if_pos (iter_dropout_lb env s0 h1 h2 k)]
  exact max_le (iter_dropout_lb env s0 h1 h2 k) (sub_le_self _ h2)

/-- The best-tracking fields of the state after `n` epochs satisfy the
best-of-the-run description `bestInv`. -/
theorem bestInv_iterFitFrom {P Q : Type} (env : FitEnv P Q) (d0 : ℚ)
    (nD nA : ℕ) :
    ∀ n, bestInv env n (iterFitFrom env 0 (initState env d0 nD nA) n) := by
  intro n
  induction n with
  | zero =>
      exact ⟨Or.inl ⟨rfl, rfl, rfl, rfl⟩, fun k hk => absurd hk (Nat.not_lt_zero k)⟩
  | succ n ih =>
      obtain ⟨hbest, hmin⟩ := ih
      have hz : (0 : ℕ) + n = n := Nat.zero_add n
      show bestInv env (n + 1)
        (fitStep env (0 + n) (iterFitFrom env 0 (initState env d0 nD nA) n))
      rw [hz]
      set s := iterFitFrom env 0 (initState env d0 nD nA) n with hs
      by_cases himp : env.lossVal n < s.best_loss_val
      · obtain ⟨h1, h2, h3, h4, _⟩ := fitStep_improve env n s himp
        constructor
        · refine Or.inr ⟨?_, ?_, ?_, ?_⟩
          · rw [h2]; exact Nat.lt_succ_self n
          · rw [h1, h2]
          · rw [h3, h2]
          · rw [h4, h2]
        · intro k hk
          rw [h1]
          rcases Nat.lt_succ_iff_lt_or_eq.mp hk with hk' | rfl
          · exact le_trans himp.le (hmin k hk')
          · exact le_refl _
      · obtain ⟨h1, h2, h3, h4, _⟩ := fitStep_no_improve env n s himp
        constructor
        · rcases hbest with ⟨b1, b2, b3, b4⟩ | ⟨b1, b2, b3, b4⟩
          · exact Or.inl ⟨h1.trans b1, h3.trans b2, h4.trans b3, h2.trans b4⟩
          · refine Or.inr ⟨?_, ?_, ?_, ?_⟩
            · rw [h2]; exact Nat.lt_succ_of_lt b1
            · rw [h1, h2]; exact b2
            · rw [h3, h2]; exact b3
            · rw [h4, h2]; exact b4
        · intro k hk
          rw [h1]
          rcases Nat.lt_succ_iff_lt_or_eq.mp hk with hk' | rfl
          · exact hmin k hk'
          · exact not_lt.mp himp

/-- When no epoch can beat the initial infinite best, the entry snapshots
and the zero best epoch survive the whole run. -/
theorem noImprove_iterFitFrom {P Q : Type} (env : FitEnv P Q) (d0 : ℚ)
    (nD nA N : ℕ) (hno : ∀ k, k < N → env.lossVal k = ⊤) :
    ∀ n, n ≤ N →
      (iterFitFrom env 0 (initState env d0 nD nA) n).best_loss_val = ⊤ ∧
      (iterFitFrom env 0 (initState env d0 nD nA) n).best_state = env.initParams ∧
      (iterFitFrom env 0 (initState env d0 nD nA) n).best_opt = env.initOpt ∧
      (iterFitFrom env 0 (initState env d0 nD nA) n).best_e = 0 := by
  intro n
  induction n with
  | zero => exact fun _ => ⟨rfl, rfl, rfl, rfl⟩
  | succ n ih =>
      intro hn
      obtain ⟨i1, i2, i3, i4⟩ := ih (by omega)
      set s := iterFitFrom env 0 (initState env d0 nD nA) n with hs
      have hnoimp : ¬ env.lossVal (0 + n) < s.best_loss_val := by
        rw [Nat.zero_add, hno n (by omega), i1]
        exact lt_irrefl ⊤
      obtain ⟨h1, h2, h3, h4, _⟩ := fitStep_no_improve env (0 + n) s hnoimp
      exact ⟨h1.trans i1, h3.trans i2, h4.trans i3, h2.trans i4⟩

/-! Claim C1: the stopping rule of the epoch loop. -/

/-- C1: the epoch loop terminates early exactly when, after the current
epoch's dropout-annealing update, `no_improv_e` equals
`int(patience / (1 - dropout))` (which is `floor` of the quotient whenever
the quotient is nonnegative); if the check never fires, the loop runs for
exactly `epochs` iterations. -/
theorem fit_stop_rule {P Q : Type} (env : FitEnv P Q) (d0 : ℚ) (nD nA epochs : ℕ)
    (p : ℚ) :
    ((∀ k, k < epochs →
        okNoBreak p (iterFitFrom env 0 (initState env d0 nD nA) (k + 1))) →
      fitLoop env p epochs 0 (initState env d0 nD nA) =
        .ok (iterFitFrom env 0 (initState env d0 nD nA) epochs)) ∧
    (∀ j, j < epochs →
      (∀ k, k < j →
        okNoBreak p (iterFitFrom env 0 (initState env d0 nD nA) (k + 1))) →
      okBreak p (iterFitFrom env 0 (initState env d0 nD nA) (j + 1)) →
      fitLoop env p epochs 0 (initState env d0 nD nA) =
        .ok (iterFitFrom env 0 (initState env d0 nD nA) (j + 1))) ∧
    (∀ q : ℚ, 0 ≤ q → pyInt q = ⌊q⌋) :=
  ⟨fun h => fitLoop_no_break env p epochs 0 (initState env d0 nD nA) h,
   fun j hj hnb hb => fitLoop_break env p j epochs 0 (initState env d0 nD nA) hj hnb hb,
   fun q hq => if_pos hq⟩

/-- The threshold of the concrete scenario: dropout one half, patience 5. -/
theorem pyIntW1 : pyInt (5 / (1 - (1/2 : ℚ))) = 10 := by
  have h : (5 / (1 - (1/2 : ℚ))) = 10 := by norm_num
  rw [h]
  unfold pyInt
  rw [if_pos (by norm_num : (0 : ℚ) ≤ 10)]
  norm_num

/-- Closed form of the `envW1` run: every epoch bumps the counter. -/
theorem iterW1 : ∀ n, iterFitFrom envW1 0 (initState envW1 (1/2) 0 0) n = mkW1 n := by
  intro n
  induction n with
  | zero => rfl
  | succ n ih =>
      show fitStep envW1 (0 + n)
        (iterFitFrom envW1 0 (initState envW1 (1/2) 0 0) n) = mkW1 (n + 1)
      rw [ih]
      simp [fitStep, mkW1, envW1]

/-- Witness for C1: with patience 5 and dropout held at one half, the run
over `envW1` (which never improves) stops by patience after epoch index 9,
the 10th consecutive non-improving epoch, within a 50-epoch budget. -/
theorem fit_stop_rule_witness :
    fitLoop envW1 5 50 0 (initState envW1 (1/2) 0 0) =
      .ok (iterFitFrom envW1 0 (initState envW1 (1/2) 0 0) 10) :=
  (fit_stop_rule envW1 (1/2) 0 0 50 5).2.1 9 (by omega)
    (fun k hk => by
      rw [iterW1]
      exact ⟨by simp only [mkW1]; norm_num,
        by simp only [mkW1]; rw [pyIntW1]; omega⟩)
    (by
      rw [iterW1]
      exact ⟨by simp only [mkW1]; norm_num,
        by simp only [mkW1]; rw [pyIntW1]; omega⟩)

/-! Claim C2: termination restores the best snapshot. -/

/-- C2: whenever `fit` returns, the live parameters equal `best_state`, the
epoch field equals `best_e`, and the best-tracking fields describe the epoch
with the lowest observed validation loss among the `n` epochs the loop
actually executed (`n` being pinned down by the stopping rule). -/
theorem fit_restores_best {P Q : Type} (env : FitEnv P Q) (d0 : ℚ)
    (nD nA epochs : ℕ) (p : ℚ) (sf : FitState P Q)
    (h : fit env d0 nD nA epochs p = .ok sf) :
    sf.params = sf.best_state ∧ sf.epoch = sf.best_e ∧
    ∃ n, n ≤ epochs ∧ bestInv env n sf ∧
      (n = epochs ∨
        (0 < n ∧ okBreak p (iterFitFrom env 0 (initState env d0 nD nA) n))) ∧
      (∀ j, 0 < j → j < n →
        okNoBreak p (iterFitFrom env 0 (initState env d0 nD nA) j)) := by
  unfold fit at h
  cases hfl : fitLoop env p epochs 0 (initState env d0 nD nA) with
  | error err =>
      rw [hfl] at h
      simp [Except.map] at h
  | ok r =>
      rw [hfl] at h
      simp only [Except.map] at h
      cases h
      obtain ⟨n, hn, hr, hbrk, hnb⟩ := fitLoop_ok_inv env p epochs 0 _ r hfl
      subst hr
      exact ⟨rfl, rfl, n, hn, bestInv_iterFitFrom env d0 nD nA n, hbrk, hnb⟩

/-- The threshold with dropout 0 and patience 5. -/
theorem pyIntFive : pyInt (5 / (1 - (0 : ℚ))) = 5 := by
  have h : (5 / (1 - (0 : ℚ))) = 5 := by norm_num
  rw [h]
  unfold pyInt
  rw [if_pos (by norm_num : (0 : ℚ) ≤ 5)]
  norm_num

/-- Epoch 0 of the `envW2` run: loss 3 improves on the initial infinity. -/
theorem iterW2one :
    iterFitFrom envW2 0 (initState envW2 0 0 0) 1 =
      { epoch := 0, params := 1, opt := (), dropout := 0, best_e := 0,
        no_improv_e := 0, best_loss_tr := ⊤,
        best_loss_val := ((3 : ℚ) : WithTop ℚ), best_losses := [],
        best_acc := [], best_state := 1, best_opt := () } := by
  show fitStep envW2 (0 + 0) (initState envW2 0 0 0) = _
  simp [fitStep, envW2, initState]

/-- Epoch 1 of the `envW2` run: loss 1 improves on 3. -/
theorem iterW2two :
    iterFitFrom envW2 0 (initState envW2 0 0 0) 2 =
      { epoch := 1, params := 2, opt := (), dropout := 0, best_e := 1,
        no_improv_e := 0, best_loss_tr := ⊤,
        best_loss_val := ((1 : ℚ) : WithTop ℚ), best_losses := [],
        best_acc := [], best_state := 2, best_opt := () } := by
  have hlt : ((1 : ℚ) : WithTop ℚ) < ((3 : ℚ) : WithTop ℚ) := by
    rw [WithTop.coe_lt_coe]
    norm_num
  show fitStep envW2 (0 + 1) (iterFitFrom envW2 0 (initState envW2 0 0 0) 1) = _
  rw [iterW2one]
  simp [fitStep, envW2, hlt]

/-- Epoch 2 of the `envW2` run: loss 2 does not improve on 1. -/
theorem iterW2three :
    iterFitFrom envW2 0 (initState envW2 0 0 0) 3 =
      { epoch := 2, params := 3, opt := (), dropout := 0, best_e := 1,
        no_improv_e := 1, best_loss_tr := ⊤,
        best_loss_val := ((1 : ℚ) : WithTop ℚ), best_losses := [],
        best_acc := [], best_state := 2, best_opt := () } := by
  have hnlt : ¬ ((2 : ℚ) : WithTop ℚ) < ((1 : ℚ) : WithTop ℚ) := by
    rw [WithTop.coe_lt_coe]
    norm_num
  show fitStep envW2 (0 + 2) (iterFitFrom envW2 0 (initState envW2 0 0 0) 2) = _
  rw [iterW2two]
  simp [fitStep, envW2, hnlt]

/-- The 3-epoch run of `fit` over `envW2` returns `sfW2`. -/
theorem fitW2 : fit envW2 0 0 0 3 5 = .ok sfW2 := by
  unfold fit
  rw [fitLoop_no_break envW2 5 3 0 (initState envW2 0 0 0) ?_]
  · rw [iterW2three]
    simp [Except.map, sfW2]
  · intro k hk
    rcases k with _ | _ | _ | k
    · rw [iterW2one]
      exact ⟨by norm_num, by
        show ((0 : ℕ) : ℤ) ≠ pyInt (5 / (1 - (0 : ℚ)))
        rw [pyIntFive]
        omega⟩
    · rw [iterW2two]
      exact ⟨by norm_num, by
        show ((0 : ℕ) : ℤ) ≠ pyInt (5 / (1 - (0 : ℚ)))
        rw [pyIntFive]
        omega⟩
    · rw [iterW2three]
      exact ⟨by norm_num, by
        show ((1 : ℕ) : ℤ) ≠ pyInt (5 / (1 - (0 : ℚ)))
        rw [pyIntFive]
        omega⟩
    · omega

/-- Witness for C2: the run over `envW2` (losses 3, 1, 2) restores the
parameters snapshotted at epoch 1, the epoch with the lowest loss. -/
theorem fit_restores_best_witness :
    sfW2.params = sfW2.best_state ∧ sfW2.epoch = sfW2.best_e ∧
    ∃ n, n ≤ 3 ∧ bestInv envW2 n sfW2 ∧
      (n = 3 ∨
        (0 < n ∧ okBreak 5 (iterFitFrom envW2 0 (initState envW2 0 0 0) n))) ∧
      (∀ j, 0 < j → j < n →
        okNoBreak 5 (iterFitFrom envW2 0 (initState envW2 0 0 0) j)) :=
  fit_restores_best envW2 0 0 0 3 5 sfW2 fitW2

/-! Claim C4: the improvement update and monotone best validation loss. -/

/-- C4: along any run the best validation loss never increases, and each
epoch either improves (strictly smaller validation loss: new best, new
snapshots, counter reset to 0) or does not (counter incremented by one and
best loss kept). -/
theorem best_val_monotone_update {P Q : Type} (env : FitEnv P Q) :
    (∀ (s0 : FitState P Q) (k m : ℕ), k ≤ m →
      (iterFitFrom env 0 s0 m).best_loss_val ≤
        (iterFitFrom env 0 s0 k).best_loss_val) ∧
    (∀ (e : ℕ) (s : FitState P Q),
      if env.lossVal e < s.best_loss_val then
        (fitStep env e s).best_loss_val = env.lossVal e ∧
        (fitStep env e s).best_e = e ∧
        (fitStep env e s).best_state = env.paramsAfter e ∧
        (fitStep env e s).best_opt = env.optAfter e ∧
        (fitStep env e s).no_improv_e = 0
      else
        (fitStep env e s).best_loss_val = s.best_loss_val ∧
        (fitStep env e s).no_improv_e = s.no_improv_e + 1) := by
  constructor
  · exact fun s0 k m hkm => iter_best_loss_val_antitone env s0 k m hkm
  · intro e s
    by_cases h : env.lossVal e < s.best_loss_val
    · rw [if_pos h]
      exact fitStep_improve env e s h
    · rw [if_neg h]
      obtain ⟨h1, _, _, _, h5⟩ := fitStep_no_improve env e s h
      exact ⟨h1, h5⟩

/-- Witness for C4: two epochs into the `envW1` run the best validation loss
is no larger than it was one epoch in. -/
theorem best_val_monotone_update_witness :
    (iterFitFrom envW1 0 (initState envW1 (1/2) 0 0) 2).best_loss_val ≤
      (iterFitFrom envW1 0 (initState envW1 (1/2) 0 0) 1).best_loss_val :=
  (best_val_monotone_update envW1).1 (initState envW1 (1/2) 0 0) 1 2 (by omega)

/-! Claim C6: the dropout annealing schedule. -/

/-- C6: with `final_dropout` at most the initial dropout and a nonnegative
`ann_rate`, dropout stays in the band between `final_dropout` and its
initial value, never increases from epoch to epoch, and each epoch applies
the floor-clamped linear decay `max final_dropout (dropout - ann_rate)`. -/
theorem dropout_schedule {P Q : Type} (env : FitEnv P Q) (s0 : FitState P Q)
    (h1 : env.final_dropout ≤ s0.dropout) (h2 : 0 ≤ env.ann_rate) :
    (∀ k, env.final_dropout ≤ (iterFitFrom env 0 s0 k).dropout ∧
      (iterFitFrom env 0 s0 k).dropout ≤ s0.dropout) ∧
    (∀ k m, k ≤ m →
      (iterFitFrom env 0 s0 m).dropout ≤ (iterFitFrom env 0 s0 k).dropout) ∧
    (∀ k, (iterFitFrom env 0 s0 (k + 1)).dropout =
      max env.final_dropout ((iterFitFrom env 0 s0 k).dropout - env.ann_rate)) := by
  have mono : ∀ k m, k ≤ m →
      (iterFitFrom env 0 s0 m).dropout ≤ (iterFitFrom env 0 s0 k).dropout := by
    intro k m hkm
    induction hkm with
    | refl => exact le_refl _
    | @step m hm ih => exact le_trans (iter_dropout_step_le env s0 h1 h2 m) ih
  refine ⟨fun k => ⟨iter_dropout_lb env s0 h1 h2 k, mono 0 k (Nat.zero_le k)⟩,
    mono, fun k => ?_⟩
  show (fitStep env (0 + k) (iterFitFrom env 0 s0 k)).dropout = _
  rw [fitStep_dropout, if_pos (iter_dropout_lb env s0 h1 h2 k)]

/-- Witness for C6: over `envW6` (decay rate one tenth, floor three tenths)
the dropout after epoch 3 is the clamped decay of the dropout after epoch 2. -/
theorem dropout_schedule_witness :
    (iterFitFrom envW6 0 s0W6 4).dropout =
      max envW6.final_dropout ((iterFitFrom envW6 0 s0W6 3).dropout - envW6.ann_rate) :=
  (dropout_schedule envW6 s0W6
    (by norm_num [envW6, s0W6, initState]) (by norm_num [envW6])).2.2 3

/-! Claim C8: element-wise best-loss and best-metric tracking. -/

/-- C8: every epoch replaces `best_losses` by the element-wise minimum with
the epoch's per-term validation losses and `best_acc` by the element-wise
maximum with the epoch's metric values, whatever the improvement outcome
(the update fires for every state `s`, with no reference to the primary
loss comparison); for metric values 0.7, 0.8, 0.75 over three epochs the
tracked best ends at 0.8. -/
theorem best_tracking :
    (∀ (P Q : Type) (env : FitEnv P Q) (e : ℕ) (s : FitState P Q),
      (fitStep env e s).best_losses =
        List.zipWith min s.best_losses (env.midLosses e) ∧
      (fitStep env e s).best_acc =
        List.zipWith max s.best_acc (env.accVals e)) ∧
    (iterFitFrom envW8 0 s0W8 3).best_acc = [((4/5 : ℚ) : WithBot ℚ)] := by
  constructor
  · exact fun P Q env e s =>
      ⟨fitStep_best_losses_min env e s, fitStep_best_acc_max env e s⟩
  · have h1 : (iterFitFrom envW8 0 s0W8 1).best_acc = [((7/10 : ℚ) : WithBot ℚ)] := by
      show (fitStep envW8 (0 + 0) s0W8).best_acc = _
      rw [fitStep_best_acc_max,
        show s0W8.best_acc = [(⊥ : WithBot ℚ)] from rfl,
        show envW8.accVals (0 + 0) = [((7/10 : ℚ) : WithBot ℚ)] from rfl]
      simp [max_eq_right bot_le]
    have h2 : (iterFitFrom envW8 0 s0W8 2).best_acc = [((4/5 : ℚ) : WithBot ℚ)] := by
      have hle : ((7/10 : ℚ) : WithBot ℚ) ≤ ((4/5 : ℚ) : WithBot ℚ) := by
        rw [WithBot.coe_le_coe]
        norm_num
      show (fitStep envW8 (0 + 1) (iterFitFrom envW8 0 s0W8 1)).best_acc = _
      rw [fitStep_best_acc_max, h1,
        show envW8.accVals (0 + 1) = [((4/5 : ℚ) : WithBot ℚ)] from rfl]
      simp [max_eq_right hle]
    have hle : ((3/4 : ℚ) : WithBot ℚ) ≤ ((4/5 : ℚ) : WithBot ℚ) := by
      rw [WithBot.coe_le_coe]
      norm_num
    show (fitStep envW8 (0 + 2) (iterFitFrom envW8 0 s0W8 2)).best_acc = _
    rw [fitStep_best_acc_max, h2,
      show envW8.accVals (0 + 2) = [((3/4 : ℚ) : WithBot ℚ)] from rfl]
    simp [max_eq_left hle]

/-! Claim C9: the entry snapshot survives improvement-free runs. -/

/-- C9: the deep snapshot is taken before the first epoch, and on any run
in which no epoch improves on the initial infinite best loss (including a
zero-epoch run) `fit` restores the entry parameters and reports best epoch
0. -/
theorem fit_no_improvement_restores_entry {P Q : Type} (env : FitEnv P Q)
    (d0 : ℚ) (nD nA epochs : ℕ) (p : ℚ) (sf : FitState P Q)
    (hno : ∀ k, k < epochs → env.lossVal k = ⊤)
    (h : fit env d0 nD nA epochs p = .ok sf) :
    (initState env d0 nD nA).best_state = env.initParams ∧
    sf.params = env.initParams ∧ sf.best_e = 0 ∧ sf.epoch = 0 := by
  unfold fit at h
  cases hfl : fitLoop env p epochs 0 (initState env d0 nD nA) with
  | error err =>
      rw [hfl] at h
      simp [Except.map] at h
  | ok r =>
      rw [hfl] at h
      simp only [Except.map] at h
      cases h
      obtain ⟨n, hn, hr, -, -⟩ := fitLoop_ok_inv env p epochs 0 _ r hfl
      subst hr
      obtain ⟨-, i2, -, i4⟩ := noImprove_iterFitFrom env d0 nD nA epochs hno n hn
      exact ⟨rfl, i2, i4, i4⟩

/-- Closed form of the `envW9` run: every epoch bumps the counter. -/
theorem iterW9 : ∀ n, iterFitFrom envW9 0 (initState envW9 0 0 0) n = mkW9 n := by
  intro n
  induction n with
  | zero => rfl
  | succ n ih =>
      show fitStep envW9 (0 + n)
        (iterFitFrom envW9 0 (initState envW9 0 0 0) n) = mkW9 (n + 1)
      rw [ih]
      simp [fitStep, mkW9, envW9]

/-- The 2-epoch run of `fit` over `envW9` returns `sfW9`. -/
theorem fitW9 : fit envW9 0 0 0 2 5 = .ok sfW9 := by
  unfold fit
  rw [fitLoop_no_break envW9 5 2 0 (initState envW9 0 0 0) ?_]
  · rw [iterW9 2]
    simp [Except.map, mkW9, sfW9]
  · intro k hk
    rw [iterW9 (k + 1)]
    exact ⟨by simp only [mkW9]; norm_num, by
      simp only [mkW9]
      rw [pyIntFive]
      omega⟩

/-- Witness for C9: a 2-epoch run over `envW9` with only infinite losses
keeps the entry snapshot and reports best epoch 0. -/
theorem fit_no_improvement_restores_entry_witness :
    (initState envW9 (0 : ℚ) 0 0).best_state = envW9.initParams ∧
    sfW9.params = envW9.initParams ∧ sfW9.best_e = 0 ∧ sfW9.epoch = 0 :=
  fit_no_improvement_restores_entry envW9 0 0 0 2 5 sfW9 (fun k _ => rfl) fitW9

/-! Claim C10: the threshold division is guarded only by dropout < 1. -/

/-- C10: whenever the current dropout is below 1, the line-197 threshold
computation is well defined and the `ZeroDivisionError` branch is
unreachable. -/
theorem stopThreshold_safe (patience dropout : ℚ) (h : dropout < 1) :
    stopThreshold patience dropout = .ok (pyInt (patience / (1 - dropout))) := by
  have hne : ¬ (1 - dropout = 0) := by
    intro h0
    rw [sub_eq_zero] at h0
    exact absurd h0 (ne_of_gt h)
  unfold stopThreshold
  rw [if_neg hne]

/-- Witness for C10: at patience 5 and dropout one half the threshold
computation succeeds. -/
theorem stopThreshold_safe_witness :
    stopThreshold 5 (1/2) = .ok (pyInt (5 / (1 - 1/2))) :=
  stopThreshold_safe 5 (1/2) (by norm_num)

/-! Claim C3: what the validation pass of `fit` actually does. -/

/-- C3 fails on the code: `fit` leaves the model in training mode, so its
validation pass takes the training branch of `mini_batch_loop`.  Inside
`torch.no_grad()` the attempted backpropagation raises a `RuntimeError` on
the first batch (first conjunct); had gradients been enabled, the same call
would have applied an optimizer step, changing the parameters from 0 to 1
(second and third conjuncts). -/
theorem fit_validation_pass_trains :
    fitValidationCall mW3 [((), ())] = .error .runtimeError ∧
    mini_batch_loop mW3 true [((), ())] false = .ok ((1 : ℚ), .pair 1 []) ∧
    (1 : ℚ) ≠ mW3.params := by
  refine ⟨rfl, ?_, by norm_num [mW3]⟩
  simp [mini_batch_loop, mbGo, mW3, weightedSum, listMean, colMeans]
  rfl

/-! Claim C5: the arity of the evaluation-mode return value. -/

/-- C5 fails on the code: in evaluation mode `mini_batch_loop` returns the
2-tuple of the mean aggregate loss and the column-wise per-term means, with
no metric component (the metric functions are never called), and the
three-target unpacking on line 126 of `fit` therefore raises a
`ValueError`. -/
theorem mb_eval_missing_metrics :
    mini_batch_loop mW5 false [((), ())] false = .ok ((0 : ℚ), .pair 7 [3, 4]) ∧
    unpack3 (.pair 7 [3, 4]) = .error .valueError := by
  refine ⟨?_, rfl⟩
  simp [mini_batch_loop, mbGo, mW5, colMeans]
  norm_num
  rw [show ([[(3 : ℚ), 4]]).transpose = [[3], [4]] from rfl]
  simp [listMean]

/-! Claim C7: the training-mode batch step. -/

/-- C7: every training-mode batch computes the weighted sum of the train
terms as its loss, records it, and applies exactly one optimizer step on it
before moving to the next batch; with two train terms of weight one half
each returning the constant loss 2, the aggregate batch loss is 2. -/
theorem train_batch_weighted_sum :
    (∀ (X Y Pr P : Type) (p0 p : P) (fwd : P → X → Pr)
      (tf vf : List (LossTerm Pr Y)) (st : P → ℚ → P) (x : X) (y : Y)
      (rest : List (X × Y)) (losses : List ℚ) (mids : List (List ℚ)),
      mbGo ⟨true, p0, fwd, tf, vf, st⟩ true true ((x, y) :: rest) p losses mids =
        mbGo ⟨true, p0, fwd, tf, vf, st⟩ true true rest
          (st p (weightedSum tf (fwd p x) y))
          (losses ++ [weightedSum tf (fwd p x) y]) mids) ∧
    mini_batch_loop mW7 true [((), ())] true = .ok ((2 : ℚ), .single 2) := by
  constructor
  · intro X Y Pr P p0 p fwd tf vf st x y rest losses mids
    rfl
  · simp [mini_batch_loop, mbGo, mW7, weightedSum, listMean]
    norm_num
